import Mathlib

/-! librtmpc: the asynchronous packet pipeline

A shallow embedding of `gear-lib/librtmpc/librtmpc.c`.

* Payload buffers live in an explicit heap (a list of blocks, the address of a
  block is its index), so that aliasing between the producer's buffer and the
  queued copy can be stated.
* Sessions, packets and queue items are values; calls into external modules
  (librtmp, the FLV muxer, libthread, libc) are recorded as events of a trace.
* Outcomes of fallible external calls are supplied by environment records.
* A result `none` of a function returning `Option` stands for undefined
  behaviour of the C code (a copy through a null pointer or past the end of a
  block).
* `printf` logging is not modelled.
-/

namespace Rtmpc

/-! ## Machine integers -/

/-- Number of values of `size_t` (64 bits). -/
def SIZE_MOD : Nat := 2 ^ 64

/-- Number of values of `int` (32 bits). -/
def INT_MOD : Nat := 2 ^ 32

/-- Conversion of an unsigned value to `int`: reduction modulo 2^32 into the
range from -2^31 up to 2^31 - 1. -/
def to_int (n : Nat) : Int :=
  if n % INT_MOD < INT_MOD / 2 then ((n % INT_MOD : Nat) : Int)
  else ((n % INT_MOD : Nat) : Int) - (INT_MOD : Int)

/-- Conversion of an `int` to `size_t`: reduction modulo 2^64. -/
def to_size_t (i : Int) : Nat := (i % (SIZE_MOD : Int)).toNat

/-- Line 50, `int alloc_size = (len + 15)/16*16;`: the right-hand side is
computed in `size_t` and then stored in an `int`. -/
def alloc_size (len : Nat) : Int := to_int ((len + 15) % SIZE_MOD / 16 * 16)

/-! ## Heap of payload buffers -/

/-- Address of a block: its index in the heap. -/
abbrev Addr := Nat

/-- The heap: block number `i` holds the bytes stored at address `i`. -/
abbrev Heap := List (List Nat)

/-- The libc call `calloc(1, size)`: on success a new zero-filled block of
`size` bytes at a fresh address, otherwise the null pointer. -/
def calloc (ok : Bool) (heap : Heap) (size : Nat) : Heap × Option Addr :=
  if ok then (heap ++ [List.replicate size 0], some heap.length) else (heap, none)

/-- The libc call `memcpy(dst, src, n)`: the first `n` bytes of block `dst` are
replaced by the first `n` bytes of block `src`. Undefined when a pointer is
null or dangling, or when a block is shorter than `n`. -/
def memcpy (heap : Heap) (dst src : Option Addr) (n : Nat) : Option Heap :=
  match dst, src with
  | some d, some s =>
    match heap[d]?, heap[s]? with
    | some db, some sb =>
      if n ≤ db.length ∧ n ≤ sb.length then
        some (heap.set d (sb.take n ++ db.drop n))
      else none
    | _, _ => none
  | _, _ => none

/-! ## Media packets -/

/-- Modelled from the spec: `enum media_type` is declared in libmedia-io, not
in this file. The spec names video, audio and subtitle; `other` stands for
every further value of the enumeration type. -/
inductive media_type
  | audio
  | video
  | subtitle
  | other (tag : Int)
  deriving DecidableEq, Repr

/-- Modelled from the spec: a rational timebase, numerator and denominator. -/
structure rational where
  num : Int
  den : Int
  deriving DecidableEq, Repr

/-- Modelled from the spec: the encoder descriptor, "at minimum a rational
timebase"; `fields` holds the remaining members of `struct video_encoder`,
which this file only copies as a whole. -/
structure video_encoder where
  timebase : rational
  fields : List Int
  deriving DecidableEq, Repr

/-- Modelled from the spec: the video variant of a packet, with the members
this file reads and writes. `data` points into the heap. -/
structure video_packet where
  data : Option Addr
  size : Nat
  pts : Nat
  dts : Nat
  key_frame : Bool
  encoder : video_encoder
  deriving DecidableEq, Repr

/-- Modelled from the spec: the audio variant; this file touches only `data`
and `size`. -/
structure audio_packet where
  data : Option Addr
  size : Nat
  deriving DecidableEq, Repr

/-- Modelled from the spec: `struct media_packet` is a tagged union over
video, audio and subtitle, declared in libmedia-io. -/
inductive media_packet
  | audio (a : audio_packet)
  | video (v : video_packet)
  | subtitle
  | other (tag : Int)
  deriving DecidableEq, Repr

/-- The tag `pkt->type`. -/
def media_packet.type : media_packet → media_type
  | .audio _ => media_type.audio
  | .video _ => media_type.video
  | .subtitle => media_type.subtitle
  | .other t => media_type.other t

/-- Modelled from the spec: `media_packet_create` of libmedia-io, "allocates a
zeroed packet of the given variant". It is only called as
`media_packet_create(MEDIA_TYPE_VIDEO, NULL, 0)`. -/
def media_packet_create : media_type → media_packet
  | .audio => .audio ⟨none, 0⟩
  | .video => .video ⟨none, 0, 0, 0, false, ⟨⟨0, 0⟩, []⟩⟩
  | .subtitle => .subtitle
  | .other t => .other t

/-! ## Queue items and the transfer queue -/

/-- Modelled from the spec: `struct item` of libqueue. The only member this
file reads is `opaque.iov_base`, the packet returned by the allocate hook. -/
structure item where
  iov_base : Option media_packet
  deriving DecidableEq, Repr

/-- Modelled from the spec: the transfer queue of libqueue, "a FIFO, ordered"
queue of items, head first. -/
abbrev queue := List item

/-- Modelled from the spec: `queue_push` of libqueue, "appends to the tail;
failure only on null item or internal allocation failure of the queue node". -/
def queue_push (node_ok : Bool) (q : queue) (it : Option item) : queue × Int :=
  match it with
  | none => (q, -1)
  | some i => if node_ok then (q ++ [i], 0) else (q, -1)

/-- Modelled from the spec: `queue_pop` of libqueue, "removes and returns the
head, or signals empty if none". -/
def queue_pop (q : queue) : queue × Option item :=
  match q with
  | [] => ([], none)
  | i :: rest => (rest, some i)

/-- Modelled from the spec: `queue_flush` of libqueue, "drains and frees all
currently queued items without delivering them". -/
def queue_flush (_q : queue) : queue := []

/-! ## Traces of external calls -/

/-- Calls into external modules, with the arguments and results that matter. -/
inductive Event
  | calloc_rtmpc
  | free_rtmpc
  | RTMP_Alloc (ret : Option Nat)
  | RTMP_Init (base : Nat)
  | RTMP_LogSetLevel
  | RTMP_SetupURL (base : Nat) (url : String) (ret : Bool)
  | RTMP_EnableWrite (base : Nat)
  | RTMP_AddStream (base : Nat)
  | RTMP_Connect (base : Nat) (ret : Bool)
  | RTMP_ConnectStream (base : Nat) (ret : Bool)
  | RTMP_Close (base : Option Nat)
  | RTMP_Free (base : Option Nat)
  | flv_mux_create (ret : Option Nat)
  | flv_mux_destroy (flv : Option Nat)
  | queue_create (ret : Bool)
  | queue_set_hook
  | queue_destroy
  | queue_flush
  | item_alloc (ret : Option item)
  | queue_push (it : Option item) (ret : Int)
  | queue_pop (ret : Option item)
  | flv_write_packet (pkt : Option media_packet) (ret : Int)
  | item_free (it : item)
  | usleep (usec : Nat)
  | thread_create (ret : Option Nat)
  | thread_set_name (thread : Nat)
  | thread_destroy (thread : Option Nat)
  deriving DecidableEq, Repr

/-- The item a call put into the queue: the argument of a `queue_push` that
returned 0. -/
def pushed_item : Event → Option item
  | Event.queue_push (some it) rc => if rc = 0 then some it else none
  | _ => none

/-- The packet a call handed to the muxer. -/
def written_packet : Event → Option (Option media_packet)
  | Event.flv_write_packet pkt _ => some pkt
  | _ => none

/-- The item a call released. -/
def freed_item : Event → Option item
  | Event.item_free it => some it
  | _ => none

/-- The item a call took out of the queue. -/
def popped_item : Event → Option item
  | Event.queue_pop (some it) => some it
  | _ => none

/-- The items that entered the queue, in call order. -/
def pushed (t : List Event) : List item := t.filterMap pushed_item

/-- The packets handed to `flv_write_packet`, in call order. -/
def written (t : List Event) : List (Option media_packet) := t.filterMap written_packet

/-- The items released through `item_free`, in call order. -/
def freed (t : List Event) : List item := t.filterMap freed_item

/-- The items obtained from `queue_pop`, in call order. -/
def popped (t : List Event) : List item := t.filterMap popped_item

/-! ## The per-item hooks -/

/-- Lines 43-68, `item_alloc_hook(data, len, arg)`. `buf_ok` is the outcome of
the `calloc` of the payload buffer. `len` is a `size_t`; the member `size` of
the packet receives it unchanged. -/
def item_alloc_hook (buf_ok : Bool) (heap : Heap) (data : Option Addr) (len : Nat)
    (arg : Option media_packet) : Option (Heap × Option media_packet) :=
  match arg with
  | none => some (heap, none)
  | some pkt =>
    let alloc_size := alloc_size len
    match pkt with
    | .audio a =>
      let (heap1, p) := calloc buf_ok heap (to_size_t alloc_size)
      match memcpy heap1 p data len with
      | none => none
      | some heap2 => some (heap2, some (.audio { a with data := p, size := len }))
    | .video v =>
      let (heap1, p) := calloc buf_ok heap (to_size_t alloc_size)
      match memcpy heap1 p data len with
      | none => none
      | some heap2 => some (heap2, some (.video { v with data := p, size := len }))
    | _ => some (heap, some pkt)

/-- Outcomes of the allocations attempted during one `rtmpc_send_packet`. -/
structure alloc_env where
  item_ok : Bool
  buf_ok : Bool
  node_ok : Bool
  deriving DecidableEq, Repr

/-- Modelled from the spec: `item_alloc` of libqueue, "invokes the allocate
hook ... and returns the item wrapping it. Returns null and logs on allocation
failure". The hook installed by `rtmpc_create` is `item_alloc_hook`. -/
def item_alloc (al : alloc_env) (heap : Heap) (data : Option Addr) (len : Nat)
    (arg : Option media_packet) : Option (Heap × Option item) :=
  if al.item_ok then
    match item_alloc_hook al.buf_ok heap data len arg with
    | none => none
    | some (heap1, p) => some (heap1, some ⟨p⟩)
  else some (heap, none)

/-! ## The client session -/

/-- The members of `struct rtmpc` used by this file. `base`, `flv` and
`thread` are handles of external objects; the queue is held by value. -/
structure rtmpc where
  base : Option Nat
  q : queue
  flv : Option Nat
  thread : Option Nat
  is_run : Bool
  is_start : Bool
  deriving DecidableEq, Repr

/-- Lines 30-41, `rtmpc_destroy`: the calls made, none for a null session. -/
def rtmpc_destroy (r : Option rtmpc) : List Event :=
  match r with
  | none => []
  | some s =>
    [Event.RTMP_Close s.base, Event.RTMP_Free s.base, Event.queue_destroy,
     Event.flv_mux_destroy s.flv, Event.free_rtmpc]

/-- Outcomes of the fallible steps of `rtmpc_create`. -/
structure create_env where
  calloc_ok : Bool
  RTMP_Alloc : Option Nat
  RTMP_SetupURL : Bool
  RTMP_Connect : Bool
  RTMP_ConnectStream : Bool
  flv_mux_create : Option Nat
  queue_create : Bool
  deriving DecidableEq, Repr

/-- Lines 129-136, the label `failed:` of `rtmpc_create`. `shell` tells
whether `rtmpc` is non-null, `q` whether `rtmpc->q` is non-null. -/
def rtmpc_create_failed (shell q : Bool) : List Event :=
  if shell then
    (if q then [Event.queue_destroy] else []) ++ [Event.free_rtmpc]
  else []

/-- Lines 83-137, `rtmpc_create`: the session returned (none for NULL) and the
calls made. At every `goto failed` the member `q` is still null, left so by
`calloc` or returned so by `queue_create`. -/
def rtmpc_create (env : create_env) (url : String) : Option rtmpc × List Event :=
  if !env.calloc_ok then (none, rtmpc_create_failed false false) else
  let t0 := [Event.calloc_rtmpc, Event.RTMP_Alloc env.RTMP_Alloc]
  match env.RTMP_Alloc with
  | none => (none, t0 ++ rtmpc_create_failed true false)
  | some base =>
    let t1 := t0 ++ [Event.RTMP_Init base, Event.RTMP_LogSetLevel,
      Event.RTMP_SetupURL base url env.RTMP_SetupURL]
    if !env.RTMP_SetupURL then (none, t1 ++ rtmpc_create_failed true false) else
    let t2 := t1 ++ [Event.RTMP_EnableWrite base, Event.RTMP_AddStream base,
      Event.RTMP_Connect base env.RTMP_Connect]
    if !env.RTMP_Connect then (none, t2 ++ rtmpc_create_failed true false) else
    let t3 := t2 ++ [Event.RTMP_ConnectStream base env.RTMP_ConnectStream]
    if !env.RTMP_ConnectStream then (none, t3 ++ rtmpc_create_failed true false) else
    let t4 := t3 ++ [Event.flv_mux_create env.flv_mux_create,
      Event.queue_create env.queue_create]
    if !env.queue_create then (none, t4 ++ rtmpc_create_failed true false) else
    (some { base := some base, q := [], flv := env.flv_mux_create, thread := none,
            is_run := false, is_start := false },
     t4 ++ [Event.queue_set_hook])

/-- Resources a session holds. -/
inductive Resource
  | shell
  | transport (base : Nat)
  | muxer (flv : Nat)
  | queue
  deriving DecidableEq, Repr

/-- The resource a call acquires, if any. -/
def acquires : Event → Option Resource
  | Event.calloc_rtmpc => some Resource.shell
  | Event.RTMP_Alloc (some b) => some (Resource.transport b)
  | Event.flv_mux_create (some f) => some (Resource.muxer f)
  | Event.queue_create true => some Resource.queue
  | _ => none

/-- The resource a call releases, if any. -/
def releases : Event → Option Resource
  | Event.free_rtmpc => some Resource.shell
  | Event.RTMP_Free (some b) => some (Resource.transport b)
  | Event.flv_mux_destroy (some f) => some (Resource.muxer f)
  | Event.queue_destroy => some Resource.queue
  | _ => none

/-- The resources acquired in a trace and not released in it. -/
def held (t : List Event) : List Resource :=
  (t.filterMap acquires).filter (fun r => decide (r ∉ t.filterMap releases))

/-- Result of one `rtmpc_send_packet`. -/
structure send_result where
  heap : Heap
  rtmpc : rtmpc
  ret : Int
  trace : List Event
  deriving DecidableEq, Repr

/-- Lines 144-172, `rtmpc_send_packet`. -/
def rtmpc_send_packet (al : alloc_env) (heap : Heap) (r : rtmpc) (pkt : media_packet) :
    Option send_result :=
  let ret : Int := 0
  match pkt with
  | .video v =>
    match media_packet_create media_type.video with
    | .video m =>
      let m := { m with key_frame := v.key_frame }
      let m := { m with dts := v.dts }
      let m := { m with pts := v.pts }
      let m := { m with encoder := { m.encoder with
        timebase := { m.encoder.timebase with num := v.encoder.timebase.num } } }
      let m := { m with encoder := { m.encoder with
        timebase := { m.encoder.timebase with den := v.encoder.timebase.den } } }
      let m := { m with encoder := v.encoder }
      match item_alloc al heap v.data v.size (some (.video m)) with
      | none => none
      | some (heap1, it) =>
        let (q1, rc) := queue_push al.node_ok r.q it
        some ⟨heap1, { r with q := q1 }, ret, [Event.item_alloc it, Event.queue_push it rc]⟩
    | _ => none
  | .audio _ => some ⟨heap, r, ret, []⟩
  | _ => some ⟨heap, r, -1, []⟩

/-! ## The streaming worker -/

/-- Lines 177-178, the entry of `rtmpc_stream_thread`: flush, then raise the
run flag. -/
def rtmpc_stream_thread_enter (r : rtmpc) : rtmpc × List Event :=
  ({ r with q := queue_flush r.q, is_run := true }, [Event.queue_flush])

/-- Lines 180-187, the body of the loop of `rtmpc_stream_thread`. The result
of `flv_write_packet` is supplied by the muxer and not used. -/
def rtmpc_stream_thread_body (flv_write_packet : Option media_packet → Int) (r : rtmpc) :
    rtmpc × List Event :=
  match queue_pop r.q with
  | (q1, none) => ({ r with q := q1 }, [Event.queue_pop none, Event.usleep 200000])
  | (q1, some it) =>
    let pkt := it.iov_base
    ({ r with q := q1 },
     [Event.queue_pop (some it), Event.flv_write_packet pkt (flv_write_packet pkt),
      Event.item_free it])

/-- Lines 179-188, `while (rtmpc->is_run)`, cut off after `fuel` passes. -/
def rtmpc_stream_thread_loop (flv_write_packet : Option media_packet → Int) :
    Nat → rtmpc → rtmpc × List Event
  | 0, r => (r, [])
  | fuel + 1, r =>
    if r.is_run then
      let (r1, t1) := rtmpc_stream_thread_body flv_write_packet r
      let (r2, t2) := rtmpc_stream_thread_loop flv_write_packet fuel r1
      (r2, t1 ++ t2)
    else (r, [])

/-- Lines 174-190, `rtmpc_stream_thread`, its loop cut off after `fuel` passes. -/
def rtmpc_stream_thread (flv_write_packet : Option media_packet → Int) (fuel : Nat)
    (r : rtmpc) : rtmpc × List Event :=
  let (r0, t0) := rtmpc_stream_thread_enter r
  let (r1, t1) := rtmpc_stream_thread_loop flv_write_packet fuel r0
  (r1, t0 ++ t1)

/-- Lines 192-199, `rtmpc_stream_stop`. `thread_destroy` receives the thread
handle only. -/
def rtmpc_stream_stop (r : Option rtmpc) : Option rtmpc × List Event :=
  match r with
  | none => (none, [])
  | some s =>
    (some { s with thread := none, is_start := false }, [Event.thread_destroy s.thread])

/-- Lines 201-219, `rtmpc_stream_start`. `thread_create` is the handle the
thread library would return, none for NULL. -/
def rtmpc_stream_start (thread_create : Option Nat) (r : Option rtmpc) :
    Option rtmpc × Int × List Event :=
  match r with
  | none => (none, -1, [])
  | some s =>
    if s.is_start then (some s, -1, [])
    else
      let s1 := { s with thread := thread_create }
      match s1.thread with
      | none => (some { s1 with is_start := false }, -1, [Event.thread_create thread_create])
      | some t =>
        (some { s1 with is_start := true }, 0,
         [Event.thread_create thread_create, Event.thread_set_name t])

/-! ## Producer and worker side by side -/

/-- One step of the pipeline: the producer completes one `rtmpc_send_packet`,
or the worker completes one pass of its loop. -/
inductive Action
  | send (al : alloc_env) (pkt : media_packet)
  | work
  deriving DecidableEq, Repr

/-- Heap and session together. -/
structure World where
  heap : Heap
  rtmpc : rtmpc
  deriving DecidableEq, Repr

/-- The effect of one action. A worker pass happens only while the loop
condition `rtmpc->is_run` holds. -/
def step (flv_write_packet : Option media_packet → Int) (w : World) :
    Action → Option (World × List Event)
  | .send al pkt =>
    match rtmpc_send_packet al w.heap w.rtmpc pkt with
    | none => none
    | some res => some (⟨res.heap, res.rtmpc⟩, res.trace)
  | .work =>
    let (r1, t1) := rtmpc_stream_thread_loop flv_write_packet 1 w.rtmpc
    some (⟨w.heap, r1⟩, t1)

/-- A schedule of actions, executed from left to right. -/
def run (flv_write_packet : Option media_packet → Int) :
    World → List Action → Option (World × List Event)
  | w, [] => some (w, [])
  | w, a :: rest =>
    match step flv_write_packet w a with
    | none => none
    | some (w1, t1) =>
      match run flv_write_packet w1 rest with
      | none => none
      | some (w2, t2) => some (w2, t1 ++ t2)

/-- The calls one pass of the worker loop makes for a popped item, the muxer
answering `flv_write_packet pkt`. -/
def item_events (flv_write_packet : Option media_packet → Int) (it : item) : List Event :=
  [Event.queue_pop (some it),
   Event.flv_write_packet it.iov_base (flv_write_packet it.iov_base),
   Event.item_free it]

/-- The calls one pass of the worker loop makes on an empty queue. -/
def idle_events : List Event := [Event.queue_pop none, Event.usleep 200000]

/-! ## Sample inputs -/

/-- A heap whose block 0 holds a five-byte payload of the producer and whose
block 1 holds a queued copy of it. -/
def sample_heap : Heap :=
  [[10, 20, 30, 40, 50], [10, 20, 30, 40, 50, 0, 0, 0, 0, 0, 0, 0, 0, 0, 0, 0]]

/-- A video packet whose payload is block 0 of `sample_heap`. -/
def sample_video : video_packet :=
  { data := some 0, size := 5, pts := 40, dts := 40, key_frame := true,
    encoder := ⟨⟨1, 25⟩, [1280, 720]⟩ }

/-- A later video packet over the same payload block. -/
def sample_video2 : video_packet :=
  { data := some 0, size := 3, pts := 80, dts := 80, key_frame := false,
    encoder := ⟨⟨1, 25⟩, [1280, 720]⟩ }

/-- The item queued for `sample_video`, its payload copied to block 1. -/
def sample_item : item := ⟨some (.video { sample_video with data := some 1 })⟩

/-- A session as `rtmpc_create` returns it. -/
def sample_idle : rtmpc :=
  { base := some 1, q := [], flv := some 2, thread := none, is_run := false, is_start := false }

/-- A started session whose worker is inside its loop, one item queued. -/
def sample_running : rtmpc :=
  { base := some 1, q := [sample_item], flv := some 2, thread := some 3, is_run := true,
    is_start := true }

/-- A heap whose block 0 holds a payload of 2^31 - 8 bytes. -/
def big_heap : Heap := [List.replicate 2147483640 7]

/-- A schedule interleaving three sends with three worker passes. -/
def sample_schedule : List Action :=
  [Action.send ⟨true, true, true⟩ (.video sample_video), Action.work,
   Action.send ⟨true, true, true⟩ (.video sample_video2),
   Action.send ⟨true, true, true⟩ (.video sample_video), Action.work, Action.work]

/-- All allocations succeed. -/
def alloc_all : alloc_env := ⟨true, true, true⟩

/-- A muxer that rejects every packet. -/
def flv_reject : Option media_packet → Int := fun _ => -1

/-! ## Session control: start, stop, destroy -/

/-- C3: on a session whose `is_start` flag is set, `rtmpc_stream_start` returns
-1, calls nothing (in particular not `thread_create`), and leaves the session,
with its thread handle and `is_start` flag, as it was. -/
theorem rtmpc_stream_start_already_started (thread_create : Option Nat) (s : rtmpc)
    (h : s.is_start = true) :
    (rtmpc_stream_start thread_create (some s)).2.1 = -1 ∧
    (∀ ret, Event.thread_create ret ∉ (rtmpc_stream_start thread_create (some s)).2.2) ∧
    (rtmpc_stream_start thread_create (some s)).2.2 = [] ∧
    (rtmpc_stream_start thread_create (some s)).1 = some s := by
  simp [rtmpc_stream_start, h]

/-- C3, at a concrete started session and a thread library ready to hand out
handle 9. -/
theorem rtmpc_stream_start_already_started_witness :
    sample_running.is_start = true ∧
    (rtmpc_stream_start (some 9) (some sample_running)).2.1 = -1 ∧
    (∀ ret, Event.thread_create ret ∉
      (rtmpc_stream_start (some 9) (some sample_running)).2.2) ∧
    (rtmpc_stream_start (some 9) (some sample_running)).2.2 = [] ∧
    (rtmpc_stream_start (some 9) (some sample_running)).1 = some sample_running :=
  ⟨rfl, rtmpc_stream_start_already_started (some 9) sample_running rfl⟩

/-- C9: on a session with null thread handle and cleared `is_start`,
`rtmpc_stream_stop` returns the session unchanged; on every session a second
stop yields the state of the first; on a null session `rtmpc_stream_stop` and
`rtmpc_destroy` call nothing. -/
theorem rtmpc_stream_stop_idempotent (s : rtmpc) (hthread : s.thread = none)
    (hstart : s.is_start = false) :
    (rtmpc_stream_stop (some s)).1 = some s ∧
    (∀ r : Option rtmpc,
      (rtmpc_stream_stop (rtmpc_stream_stop r).1).1 = (rtmpc_stream_stop r).1) ∧
    rtmpc_stream_stop none = (none, []) ∧
    rtmpc_destroy none = [] := by
  refine ⟨?_, ?_, rfl, rfl⟩
  · cases s
    simp_all [rtmpc_stream_stop]
  · intro r
    cases r <;> simp [rtmpc_stream_stop]

/-- C9, at a freshly created session. -/
theorem rtmpc_stream_stop_idempotent_witness :
    (rtmpc_stream_stop (some sample_idle)).1 = some sample_idle ∧
    (∀ r : Option rtmpc,
      (rtmpc_stream_stop (rtmpc_stream_stop r).1).1 = (rtmpc_stream_stop r).1) ∧
    rtmpc_stream_stop none = (none, []) ∧
    rtmpc_destroy none = [] :=
  rtmpc_stream_stop_idempotent sample_idle rfl rfl

/-- C6: `rtmpc_stream_stop` clears the thread handle and `is_start` and
nothing else, so `is_run` keeps its value; on the running sample session the
flag is still set after the stop and the next pass of the worker loop pops
again. -/
theorem rtmpc_stream_stop_keeps_is_run :
    (∀ s : rtmpc, (rtmpc_stream_stop (some s)).1 =
      some { s with thread := none, is_start := false }) ∧
    (∀ s : rtmpc,
      (rtmpc_stream_stop (some s)).1.map (fun s1 => s1.is_run) = some s.is_run) ∧
    (∃ s1, (rtmpc_stream_stop (some sample_running)).1 = some s1 ∧ s1.is_run = true ∧
      (rtmpc_stream_thread_loop flv_reject 1 s1).2 =
        [Event.queue_pop (some sample_item),
         Event.flv_write_packet sample_item.iov_base (-1),
         Event.item_free sample_item]) :=
  ⟨fun _ => rfl, fun _ => rfl, ⟨_, rfl, rfl, rfl⟩⟩

/-! ## Session creation -/

/-- C5: when `RTMP_SetupURL`, `RTMP_Connect` or `RTMP_ConnectStream` fails,
`rtmpc_create` returns NULL while the transport handle obtained from
`RTMP_Alloc` is still held; when `queue_create` fails it returns NULL while the
transport handle and the muxer are still held. -/
theorem rtmpc_create_failure_keeps_transport (base flv : Nat) (url : String)
    (mux : Option Nat) (b1 b2 b3 b4 b5 : Bool) :
    rtmpc_create ⟨true, some base, false, b1, b2, mux, b3⟩ url
      = (none, [Event.calloc_rtmpc, Event.RTMP_Alloc (some base), Event.RTMP_Init base,
          Event.RTMP_LogSetLevel, Event.RTMP_SetupURL base url false, Event.free_rtmpc]) ∧
    held (rtmpc_create ⟨true, some base, false, b1, b2, mux, b3⟩ url).2
      = [Resource.transport base] ∧
    held (rtmpc_create ⟨true, some base, true, false, b4, mux, b5⟩ url).2
      = [Resource.transport base] ∧
    held (rtmpc_create ⟨true, some base, true, true, false, mux, b5⟩ url).2
      = [Resource.transport base] ∧
    (rtmpc_create ⟨true, some base, true, true, true, some flv, false⟩ url).1 = none ∧
    held (rtmpc_create ⟨true, some base, true, true, true, some flv, false⟩ url).2
      = [Resource.transport base, Resource.muxer flv] := by
  simp [rtmpc_create, rtmpc_create_failed, held, acquires, releases]

/-- Whichever step fails, `rtmpc_create` returns NULL; after a failed session
allocation or a failed `RTMP_Alloc` nothing is held. -/
theorem rtmpc_create_null_on_failure (env : create_env) (url : String)
    (h : env.calloc_ok = false ∨ env.RTMP_Alloc = none ∨ env.RTMP_SetupURL = false ∨
      env.RTMP_Connect = false ∨ env.RTMP_ConnectStream = false ∨ env.queue_create = false) :
    (rtmpc_create env url).1 = none ∧
    (env.calloc_ok = false ∨ env.RTMP_Alloc = none → held (rtmpc_create env url).2 = []) := by
  obtain ⟨c, a, s, cn, cs, f, q⟩ := env
  constructor
  · cases c <;> cases a <;> cases s <;> cases cn <;> cases cs <;> cases q <;>
      simp_all [rtmpc_create]
  · intro h2
    cases c <;> cases a <;>
      simp_all [rtmpc_create, rtmpc_create_failed, held, acquires, releases]

/-! ## Sending packets -/

/-- C7: for a packet that is not video, `rtmpc_send_packet` calls neither
`item_alloc` nor `queue_push`, leaves heap and session (hence the queue) as
they were, and returns 0 for audio and -1 for subtitle and any other type. -/
theorem rtmpc_send_packet_non_video (al : alloc_env) (heap : Heap) (r : rtmpc)
    (pkt : media_packet) (h : pkt.type ≠ media_type.video) :
    rtmpc_send_packet al heap r pkt =
      some ⟨heap, r, if pkt.type = media_type.audio then 0 else -1, []⟩ := by
  cases pkt <;> simp_all [rtmpc_send_packet, media_packet.type]

/-- C7, for a subtitle packet sent to the running sample session. -/
theorem rtmpc_send_packet_non_video_witness :
    media_packet.subtitle.type ≠ media_type.video ∧
    rtmpc_send_packet alloc_all sample_heap sample_running media_packet.subtitle =
      some ⟨sample_heap, sample_running, -1, []⟩ :=
  ⟨by decide, rtmpc_send_packet_non_video alloc_all sample_heap sample_running
    media_packet.subtitle (by decide)⟩

/-- C4: a defined `rtmpc_send_packet` on a video packet returns 0 whatever
`item_alloc` and `queue_push` returned. When `item_alloc` returns null it hands
the null item to `queue_push`, which fails, and returns 0; when `item_alloc`
succeeds and `queue_push` fails it returns 0 as well. -/
theorem rtmpc_send_packet_failure_returns_zero :
    (∀ (al : alloc_env) (heap : Heap) (r : rtmpc) (v : video_packet),
      (rtmpc_send_packet al heap r (.video v)).map (fun res => res.ret) = none ∨
      (rtmpc_send_packet al heap r (.video v)).map (fun res => res.ret) = some 0) ∧
    (∀ (buf_ok node_ok : Bool) (heap : Heap) (r : rtmpc) (v : video_packet),
      rtmpc_send_packet ⟨false, buf_ok, node_ok⟩ heap r (.video v) =
        some ⟨heap, r, 0, [Event.item_alloc none, Event.queue_push none (-1)]⟩) ∧
    (∃ res, rtmpc_send_packet ⟨true, true, false⟩ sample_heap sample_idle (.video sample_video)
        = some res ∧
      res.ret = 0 ∧ res.rtmpc.q = [] ∧
      Event.queue_push
        (some ⟨some (.video { sample_video with data := some 2 })⟩) (-1) ∈ res.trace) := by
  refine ⟨?_, ?_, ⟨_, rfl, rfl, rfl, ?_⟩⟩
  · intro al heap r v
    simp only [rtmpc_send_packet, media_packet_create]
    cases item_alloc al heap v.data v.size
        (some (.video { v with data := none, size := 0 })) with
    | none => left; rfl
    | some p => right; rfl
  · intro buf_ok node_ok heap r v
    simp [rtmpc_send_packet, media_packet_create, item_alloc, queue_push]
  · decide

/-! ## Traces: elementary facts -/

theorem pushed_append (t1 t2 : List Event) : pushed (t1 ++ t2) = pushed t1 ++ pushed t2 := by
  simp [pushed]

theorem written_append (t1 t2 : List Event) :
    written (t1 ++ t2) = written t1 ++ written t2 := by
  simp [written]

theorem popped_append (t1 t2 : List Event) : popped (t1 ++ t2) = popped t1 ++ popped t2 := by
  simp [popped]

theorem freed_append (t1 t2 : List Event) : freed (t1 ++ t2) = freed t1 ++ freed t2 := by
  simp [freed]

/-! ## The worker loop -/

theorem loop_succ_running (flv : Option media_packet → Int) (fuel : Nat) (r : rtmpc)
    (hrun : r.is_run = true) :
    rtmpc_stream_thread_loop flv (fuel + 1) r =
      ((rtmpc_stream_thread_loop flv fuel (rtmpc_stream_thread_body flv r).1).1,
       (rtmpc_stream_thread_body flv r).2 ++
         (rtmpc_stream_thread_loop flv fuel (rtmpc_stream_thread_body flv r).1).2) := by
  simp [rtmpc_stream_thread_loop, hrun]

theorem body_cons (flv : Option media_packet → Int) (r : rtmpc) (it : item) (rest : queue)
    (hq : r.q = it :: rest) :
    rtmpc_stream_thread_body flv r = ({ r with q := rest }, item_events flv it) := by
  simp [rtmpc_stream_thread_body, queue_pop, hq, item_events]

theorem body_nil (flv : Option media_packet → Int) (r : rtmpc) (hq : r.q = []) :
    rtmpc_stream_thread_body flv r = (r, idle_events) := by
  cases r
  simp_all [rtmpc_stream_thread_body, queue_pop, idle_events]

theorem loop_idle (flv : Option media_packet → Int) (k : Nat) (r : rtmpc)
    (hrun : r.is_run = true) (hq : r.q = []) :
    rtmpc_stream_thread_loop flv k r = (r, (List.replicate k idle_events).flatten) := by
  induction k with
  | zero => rfl
  | succ k ih =>
    rw [loop_succ_running flv k r hrun, body_nil flv r hq]
    simp [ih, List.replicate_succ]

theorem loop_drain (flv : Option media_packet → Int) (k : Nat) (items : queue) :
    ∀ r : rtmpc, r.is_run = true → r.q = items →
      rtmpc_stream_thread_loop flv (items.length + k) r =
        ({ r with q := [] },
         (items.map (item_events flv)).flatten ++ (List.replicate k idle_events).flatten) := by
  induction items with
  | nil =>
    intro r hrun hq
    have h := loop_idle flv k r hrun hq
    cases r
    simp_all
  | cons it rest ih =>
    intro r hrun hq
    have hfuel : (it :: rest).length + k = (rest.length + k) + 1 := by
      simp only [List.length_cons]; omega
    rw [hfuel, loop_succ_running flv _ r hrun, body_cons flv r it rest hq]
    have h := ih { r with q := rest } hrun rfl
    simp only [h, List.map_cons, List.flatten_cons, List.append_assoc]

theorem written_item_events (flv : Option media_packet → Int) (items : queue) :
    written (items.map (item_events flv)).flatten = items.map (fun it => it.iov_base) := by
  induction items with
  | nil => rfl
  | cons it rest ih =>
    rw [List.map_cons, List.flatten_cons, written_append, ih]
    simp [item_events, written, written_packet]

theorem freed_item_events (flv : Option media_packet → Int) (items : queue) :
    freed (items.map (item_events flv)).flatten = items := by
  induction items with
  | nil => rfl
  | cons it rest ih =>
    rw [List.map_cons, List.flatten_cons, freed_append, ih]
    simp [item_events, freed, freed_item]

theorem popped_item_events (flv : Option media_packet → Int) (items : queue) :
    popped (items.map (item_events flv)).flatten = items := by
  induction items with
  | nil => rfl
  | cons it rest ih =>
    rw [List.map_cons, List.flatten_cons, popped_append, ih]
    simp [item_events, popped, popped_item]

theorem written_idle (k : Nat) : written (List.replicate k idle_events).flatten = [] := by
  induction k with
  | zero => rfl
  | succ k ih =>
    rw [List.replicate_succ, List.flatten_cons, written_append, ih]
    simp [idle_events, written, written_packet]

theorem freed_idle (k : Nat) : freed (List.replicate k idle_events).flatten = [] := by
  induction k with
  | zero => rfl
  | succ k ih =>
    rw [List.replicate_succ, List.flatten_cons, freed_append, ih]
    simp [idle_events, freed, freed_item]

/-! ## The allocate hook -/

theorem alloc_size_in_range (len : Nat) (h : len + 15 < 2 ^ 31) :
    to_size_t (alloc_size len) = (len + 15) / 16 * 16 := by
  unfold to_size_t alloc_size to_int SIZE_MOD INT_MOD
  split <;> omega

theorem heap_addr_valid {heap : Heap} {a : Addr} {src : List Nat} (hsrc : heap[a]? = some src) :
    a < heap.length := by
  by_contra hc
  rw [List.getElem?_eq_none (Nat.le_of_not_lt hc)] at hsrc
  cases hsrc

theorem memcpy_null (heap : Heap) (src : Option Addr) (n : Nat) :
    memcpy heap none src n = none := by
  simp [memcpy]

theorem memcpy_fresh (heap : Heap) (a : Addr) (src : List Nat) (R n : Nat)
    (hsrc : heap[a]? = some src) :
    memcpy (heap ++ [List.replicate R 0]) (some heap.length) (some a) n =
      if n ≤ R ∧ n ≤ src.length then
        some (heap ++ [src.take n ++ List.replicate (R - n) 0])
      else none := by
  have ha := heap_addr_valid hsrc
  simp [memcpy, List.getElem?_append_left ha, hsrc]

theorem item_alloc_hook_video (heap : Heap) (a : Addr) (src : List Nat) (len : Nat)
    (v : video_packet) (hsrc : heap[a]? = some src) :
    item_alloc_hook true heap (some a) len (some (.video v)) =
      if len ≤ to_size_t (alloc_size len) ∧ len ≤ src.length then
        some (heap ++ [src.take len ++ List.replicate (to_size_t (alloc_size len) - len) 0],
              some (.video { v with data := some heap.length, size := len }))
      else none := by
  simp only [item_alloc_hook, calloc, if_true, memcpy_fresh heap a src _ len hsrc]
  by_cases hc : len ≤ to_size_t (alloc_size len) ∧ len ≤ src.length
  · simp only [if_pos hc]
  · simp only [if_neg hc]

theorem item_alloc_hook_audio (heap : Heap) (a : Addr) (src : List Nat) (len : Nat)
    (au : audio_packet) (hsrc : heap[a]? = some src) :
    item_alloc_hook true heap (some a) len (some (.audio au)) =
      if len ≤ to_size_t (alloc_size len) ∧ len ≤ src.length then
        some (heap ++ [src.take len ++ List.replicate (to_size_t (alloc_size len) - len) 0],
              some (.audio { au with data := some heap.length, size := len }))
      else none := by
  simp only [item_alloc_hook, calloc, if_true, memcpy_fresh heap a src _ len hsrc]
  by_cases hc : len ≤ to_size_t (alloc_size len) ∧ len ≤ src.length
  · simp only [if_pos hc]
  · simp only [if_neg hc]

theorem item_alloc_hook_video_no_buffer (heap : Heap) (data : Option Addr) (len : Nat)
    (v : video_packet) :
    item_alloc_hook false heap data len (some (.video v)) = none := by
  simp [item_alloc_hook, calloc, memcpy_null]

/-- C10, as stated, fails at len = 2^31 - 8: the rounded size 2^31 does not fit
the `int alloc_size`, the buffer requested from `calloc` has 2^64 - 2^31 bytes,
which is not (len + 15) / 16 * 16 and not the smallest multiple of 16 that is
not less than len. -/
theorem item_alloc_hook_rounding_overflow :
    ∃ heap1 blk,
      item_alloc_hook true big_heap (some 0) 2147483640 (some (.video sample_video)) =
        some (heap1, some (.video { sample_video with data := some 1, size := 2147483640 })) ∧
      heap1[1]? = some blk ∧
      blk.length = 18446744071562067968 ∧
      blk.length ≠ (2147483640 + 15) / 16 * 16 ∧
      ¬ (∀ m : Nat, m % 16 = 0 → 2147483640 ≤ m → blk.length ≤ m) := by
  have hreq : to_size_t (alloc_size 2147483640) = 18446744071562067968 := by decide
  have hsrc : big_heap[0]? = some (List.replicate 2147483640 7) := rfl
  have hhook := item_alloc_hook_video big_heap 0 _ 2147483640 sample_video hsrc
  rw [hreq, List.length_replicate, if_pos ⟨by norm_num, le_refl _⟩] at hhook
  have hlen : big_heap.length = 1 := rfl
  rw [hlen] at hhook
  have hblk : (List.take 2147483640 (List.replicate 2147483640 7) ++
      List.replicate (18446744071562067968 - 2147483640) 0).length = 18446744071562067968 := by
    rw [List.length_append, List.length_take, List.length_replicate, List.length_replicate]
    norm_num
  have hget : ∀ blk : List Nat, (big_heap ++ [blk])[1]? = some blk := by
    intro blk
    have h : (big_heap ++ [blk])[big_heap.length]? = some blk := by simp
    rwa [hlen] at h
  refine ⟨_, List.take 2147483640 (List.replicate 2147483640 7) ++
      List.replicate (18446744071562067968 - 2147483640) 0, hhook, hget _, hblk, ?_, ?_⟩
  · rw [hblk]; norm_num
  · rw [hblk]
    intro hall
    have h := hall 2147483648 (by norm_num) (by norm_num)
    norm_num at h

/-- C10, amended: for every length len with len + 15 < 2^31, the rounded size
(len + 15) / 16 * 16 is the smallest multiple of 16 that is not less than len;
for an audio or video context packet, when `calloc` succeeds and the source
block holds at least len bytes, `item_alloc_hook` allocates a new block of
that size holding the first len source bytes followed by zeros, stores its
address in `data` and records size = len; for a context packet of any other
type, and any len, it leaves the heap as it was and returns the packet
unmodified. -/
theorem item_alloc_hook_rounding (heap : Heap) (a : Addr) (src : List Nat) (len : Nat)
    (hlen : len + 15 < 2 ^ 31) (hsrc : heap[a]? = some src) (hcopy : len ≤ src.length) :
    ((len + 15) / 16 * 16 % 16 = 0 ∧ len ≤ (len + 15) / 16 * 16 ∧
      ∀ m : Nat, m % 16 = 0 → len ≤ m → (len + 15) / 16 * 16 ≤ m) ∧
    to_size_t (alloc_size len) = (len + 15) / 16 * 16 ∧
    (src.take len ++ List.replicate ((len + 15) / 16 * 16 - len) 0).length
      = (len + 15) / 16 * 16 ∧
    (∀ v : video_packet,
      item_alloc_hook true heap (some a) len (some (.video v)) =
        some (heap ++ [src.take len ++ List.replicate ((len + 15) / 16 * 16 - len) 0],
              some (.video { v with data := some heap.length, size := len }))) ∧
    (∀ au : audio_packet,
      item_alloc_hook true heap (some a) len (some (.audio au)) =
        some (heap ++ [src.take len ++ List.replicate ((len + 15) / 16 * 16 - len) 0],
              some (.audio { au with data := some heap.length, size := len }))) ∧
    (∀ (ok : Bool) (data : Option Addr) (n : Nat) (pkt : media_packet),
      pkt.type ≠ media_type.audio → pkt.type ≠ media_type.video →
      item_alloc_hook ok heap data n (some pkt) = some (heap, some pkt)) := by
  have hreq := alloc_size_in_range len hlen
  have hle : len ≤ (len + 15) / 16 * 16 := by omega
  refine ⟨⟨by omega, hle, fun m hm hlm => by omega⟩, hreq, ?_, ?_, ?_, ?_⟩
  · rw [List.length_append, List.length_take, List.length_replicate]
    omega
  · intro v
    rw [item_alloc_hook_video heap a src len v hsrc, hreq, if_pos ⟨hle, hcopy⟩]
  · intro au
    rw [item_alloc_hook_audio heap a src len au hsrc, hreq, if_pos ⟨hle, hcopy⟩]
  · intro ok data n pkt h1 h2
    cases pkt <;> simp_all [item_alloc_hook, media_packet.type]

/-- C10 amended, at the five-byte sample payload. -/
theorem item_alloc_hook_rounding_witness :
    ((5 + 15) / 16 * 16 % 16 = 0 ∧ 5 ≤ (5 + 15) / 16 * 16 ∧
      ∀ m : Nat, m % 16 = 0 → 5 ≤ m → (5 + 15) / 16 * 16 ≤ m) ∧
    to_size_t (alloc_size 5) = (5 + 15) / 16 * 16 ∧
    (List.take 5 [10, 20, 30, 40, 50] ++ List.replicate ((5 + 15) / 16 * 16 - 5) 0).length
      = (5 + 15) / 16 * 16 ∧
    (∀ v : video_packet,
      item_alloc_hook true sample_heap (some 0) 5 (some (.video v)) =
        some (sample_heap ++
                [List.take 5 [10, 20, 30, 40, 50] ++ List.replicate ((5 + 15) / 16 * 16 - 5) 0],
              some (.video { v with data := some sample_heap.length, size := 5 }))) ∧
    (∀ au : audio_packet,
      item_alloc_hook true sample_heap (some 0) 5 (some (.audio au)) =
        some (sample_heap ++
                [List.take 5 [10, 20, 30, 40, 50] ++ List.replicate ((5 + 15) / 16 * 16 - 5) 0],
              some (.audio { au with data := some sample_heap.length, size := 5 }))) ∧
    (∀ (ok : Bool) (data : Option Addr) (n : Nat) (pkt : media_packet),
      pkt.type ≠ media_type.audio → pkt.type ≠ media_type.video →
      item_alloc_hook ok sample_heap data n (some pkt) = some (sample_heap, some pkt)) :=
  item_alloc_hook_rounding sample_heap 0 [10, 20, 30, 40, 50] 5 (by norm_num) rfl (by decide)

/-! ## Sending a video packet -/

theorem rtmpc_send_packet_video_unfold (al : alloc_env) (heap : Heap) (r : rtmpc)
    (v : video_packet) :
    rtmpc_send_packet al heap r (.video v) =
      match item_alloc al heap v.data v.size
          (some (.video { v with data := none, size := 0 })) with
      | none => none
      | some (heap1, it) =>
        some ⟨heap1, { r with q := (queue_push al.node_ok r.q it).1 }, 0,
          [Event.item_alloc it, Event.queue_push it (queue_push al.node_ok r.q it).2]⟩ := by
  simp only [rtmpc_send_packet, media_packet_create]

/-- Whatever packet is sent, a defined `rtmpc_send_packet` changes nothing of
the session but the queue, which grows by exactly the items pushed. -/
theorem rtmpc_send_packet_queue (al : alloc_env) (heap : Heap) (r : rtmpc) (pkt : media_packet)
    (res : send_result) (h : rtmpc_send_packet al heap r pkt = some res) :
    res.rtmpc = { r with q := r.q ++ pushed res.trace } ∧
    popped res.trace = [] ∧ written res.trace = [] ∧ freed res.trace = [] := by
  cases pkt with
  | video v =>
    rw [rtmpc_send_packet_video_unfold] at h
    cases hia : item_alloc al heap v.data v.size
        (some (.video { v with data := none, size := 0 })) with
    | none => rw [hia] at h; cases h
    | some p =>
      obtain ⟨heap1, it⟩ := p
      rw [hia] at h
      simp only [Option.some.injEq] at h
      subst h
      cases it with
      | none =>
        cases r
        simp [queue_push, pushed, pushed_item, popped, popped_item, written, written_packet,
          freed, freed_item]
      | some i =>
        cases hn : al.node_ok <;>
          simp [queue_push, pushed, pushed_item, popped, popped_item, written,
            written_packet, freed, freed_item]
  | audio a =>
    simp only [rtmpc_send_packet, Option.some.injEq] at h
    subst h
    cases r
    simp [pushed, popped, written, freed]
  | subtitle =>
    simp only [rtmpc_send_packet, Option.some.injEq] at h
    subst h
    cases r
    simp [pushed, popped, written, freed]
  | other t =>
    simp only [rtmpc_send_packet, Option.some.injEq] at h
    subst h
    cases r
    simp [pushed, popped, written, freed]

/-- When the payload block is valid and every allocation succeeds, a video
packet whose rounded size fits `int alloc_size` is copied and queued. -/
theorem rtmpc_send_packet_video_defined (heap : Heap) (r : rtmpc) (v : video_packet)
    (a : Addr) (src : List Nat) (hdata : v.data = some a) (hsrc : heap[a]? = some src)
    (hlen : v.size ≤ src.length) (hfit : v.size + 15 < 2 ^ 31) :
    rtmpc_send_packet ⟨true, true, true⟩ heap r (.video v) =
      some ⟨heap ++ [src.take v.size ++ List.replicate ((v.size + 15) / 16 * 16 - v.size) 0],
        { r with q := r.q ++ [⟨some (.video { v with data := some heap.length })⟩] }, 0,
        [Event.item_alloc (some ⟨some (.video { v with data := some heap.length })⟩),
         Event.queue_push (some ⟨some (.video { v with data := some heap.length })⟩) 0]⟩ := by
  have hreq := alloc_size_in_range v.size hfit
  have hle : v.size ≤ (v.size + 15) / 16 * 16 := by omega
  rw [rtmpc_send_packet_video_unfold]
  simp only [item_alloc, if_true, hdata]
  rw [item_alloc_hook_video heap a src v.size _ hsrc, hreq, if_pos ⟨hle, hlen⟩]
  simp [queue_push]

/-- The copy of a video packet that a defined, successful send puts in the
queue, and the heap it leaves. -/
theorem rtmpc_send_packet_video_result (al : alloc_env) (heap : Heap) (r : rtmpc)
    (v : video_packet) (a : Addr) (src : List Nat) (res : send_result)
    (hdata : v.data = some a) (hsrc : heap[a]? = some src)
    (hitem : al.item_ok = true) (hnode : al.node_ok = true)
    (hdef : rtmpc_send_packet al heap r (.video v) = some res) :
    v.size ≤ src.length ∧
    res = ⟨heap ++ [src.take v.size ++
              List.replicate (to_size_t (alloc_size v.size) - v.size) 0],
        { r with q := r.q ++ [⟨some (.video { v with data := some heap.length })⟩] }, 0,
        [Event.item_alloc (some ⟨some (.video { v with data := some heap.length })⟩),
         Event.queue_push (some ⟨some (.video { v with data := some heap.length })⟩) 0]⟩ := by
  obtain ⟨item_ok, buf_ok, node_ok⟩ := al
  simp only at hitem hnode
  subst hitem hnode
  rw [rtmpc_send_packet_video_unfold] at hdef
  simp only [item_alloc, if_true, hdata] at hdef
  cases buf_ok with
  | false =>
    rw [item_alloc_hook_video_no_buffer] at hdef
    cases hdef
  | true =>
    rw [item_alloc_hook_video heap a src v.size _ hsrc] at hdef
    by_cases hc : v.size ≤ to_size_t (alloc_size v.size) ∧ v.size ≤ src.length
    · rw [if_pos hc] at hdef
      simp only [queue_push, if_true, Option.some.injEq] at hdef
      exact ⟨hc.2, hdef.symm⟩
    · rw [if_neg hc] at hdef
      cases hdef

/-- C2: let p be a video packet whose `data` points at a valid block of the
heap, and let `rtmpc_send_packet` run with defined behaviour, `item_alloc` and
`queue_push` succeeding. Then it returns 0 and appends to the queue one item
whose packet equals p in size, key_frame, dts, pts and encoder and differs
only in `data`, which is a fresh address, distinct from p's; the block there
starts with the first p.size bytes of p's payload; overwriting p's block
afterwards does not change that block; and the worker loop, once it has
drained the queue, has handed exactly that packet to `flv_write_packet`, after
the packets queued before it. -/
theorem rtmpc_send_packet_copy_fidelity (flv_write_packet : Option media_packet → Int)
    (al : alloc_env) (heap : Heap) (r : rtmpc) (v : video_packet) (a : Addr) (src : List Nat)
    (res : send_result)
    (hdata : v.data = some a) (hsrc : heap[a]? = some src)
    (hitem : al.item_ok = true) (hnode : al.node_ok = true) (hrun : r.is_run = true)
    (hdef : rtmpc_send_packet al heap r (.video v) = some res) :
    res.ret = 0 ∧
    v.size ≤ src.length ∧
    res.rtmpc.q = r.q ++ [⟨some (.video { v with data := some heap.length })⟩] ∧
    a ≠ heap.length ∧
    res.heap[a]? = some src ∧
    (∃ blk, res.heap[heap.length]? = some blk ∧ blk.take v.size = src.take v.size) ∧
    (∀ bytes : List Nat,
      (res.heap.set a bytes)[heap.length]? = res.heap[heap.length]?) ∧
    written (rtmpc_stream_thread_loop flv_write_packet res.rtmpc.q.length res.rtmpc).2 =
      r.q.map (fun it => it.iov_base) ++ [some (.video { v with data := some heap.length })] := by
  obtain ⟨hlen, hres⟩ :=
    rtmpc_send_packet_video_result al heap r v a src res hdata hsrc hitem hnode hdef
  have ha := heap_addr_valid hsrc
  subst hres
  refine ⟨rfl, hlen, rfl, Nat.ne_of_lt ha, ?_, ?_, ?_, ?_⟩
  · show (heap ++ _)[a]? = some src
    rw [List.getElem?_append_left ha, hsrc]
  · refine ⟨_, List.getElem?_concat_length _ _, ?_⟩
    rw [List.take_append_of_le_length (by rw [List.length_take]; omega)]
    simp
  · intro bytes
    show ((heap ++ _).set a bytes)[heap.length]? = (heap ++ _)[heap.length]?
    rw [List.getElem?_set_ne (Nat.ne_of_lt ha)]
  · have h := loop_drain flv_write_packet 0
      (r.q ++ [item.mk (some (.video { v with data := some heap.length }))])
      { r with q := r.q ++ [item.mk (some (.video { v with data := some heap.length }))] }
      hrun rfl
    rw [Nat.add_zero] at h
    show written (rtmpc_stream_thread_loop flv_write_packet
      (r.q ++ [item.mk (some (.video { v with data := some heap.length }))]).length
      { r with q := r.q ++ [item.mk (some (.video { v with data := some heap.length }))] }).2
        = _
    rw [h]
    simp only [List.replicate_zero, List.flatten_nil, List.append_nil]
    rw [written_item_events, List.map_append]
    rfl

/-- C2, for `sample_video2` sent while `sample_item` is still queued. -/
theorem rtmpc_send_packet_copy_fidelity_witness :
    ∃ res, rtmpc_send_packet alloc_all sample_heap sample_running (.video sample_video2)
        = some res ∧
      res.ret = 0 ∧
      sample_video2.size ≤ [10, 20, 30, 40, 50].length ∧
      res.rtmpc.q = sample_running.q ++
        [⟨some (.video { sample_video2 with data := some sample_heap.length })⟩] ∧
      0 ≠ sample_heap.length ∧
      res.heap[0]? = some [10, 20, 30, 40, 50] ∧
      (∃ blk, res.heap[sample_heap.length]? = some blk ∧
        blk.take sample_video2.size = List.take sample_video2.size [10, 20, 30, 40, 50]) ∧
      (∀ bytes : List Nat,
        (res.heap.set 0 bytes)[sample_heap.length]? = res.heap[sample_heap.length]?) ∧
      written (rtmpc_stream_thread_loop flv_reject res.rtmpc.q.length res.rtmpc).2 =
        sample_running.q.map (fun it => it.iov_base) ++
          [some (.video { sample_video2 with data := some sample_heap.length })] :=
  ⟨_, rfl, rtmpc_send_packet_copy_fidelity flv_reject alloc_all sample_heap sample_running
    sample_video2 0 [10, 20, 30, 40, 50] _ rfl rfl rfl rfl rfl rfl⟩

/-! ## Producer and worker interleaved -/

theorem step_invariant (flv : Option media_packet → Int) (w w1 : World) (a : Action)
    (t1 : List Event) (hrun : w.rtmpc.is_run = true) (h : step flv w a = some (w1, t1)) :
    popped t1 ++ w1.rtmpc.q = w.rtmpc.q ++ pushed t1 ∧
    written t1 = (popped t1).map (fun it => it.iov_base) ∧
    freed t1 = popped t1 ∧ w1.rtmpc.is_run = true := by
  cases a with
  | send al pkt =>
    simp only [step] at h
    cases hs : rtmpc_send_packet al w.heap w.rtmpc pkt with
    | none => rw [hs] at h; cases h
    | some res =>
      rw [hs] at h
      simp only [Option.some.injEq, Prod.mk.injEq] at h
      obtain ⟨hw, ht⟩ := h
      subst hw ht
      obtain ⟨hq, hp, hwr, hf⟩ := rtmpc_send_packet_queue al w.heap w.rtmpc pkt res hs
      simp only [hp, hwr, hf, hq, List.nil_append, List.map_nil, hrun, and_self]
  | work =>
    simp only [step, Option.some.injEq, Prod.mk.injEq] at h
    obtain ⟨hw, ht⟩ := h
    subst hw ht
    rw [loop_succ_running flv 0 w.rtmpc hrun]
    simp only [rtmpc_stream_thread_loop, List.append_nil]
    cases hq : w.rtmpc.q with
    | nil =>
      rw [body_nil flv w.rtmpc hq]
      simp [idle_events, popped, popped_item, pushed, pushed_item, written, written_packet,
        freed, freed_item, hq, hrun]
    | cons it rest =>
      rw [body_cons flv w.rtmpc it rest hq]
      simp [item_events, popped, popped_item, pushed, pushed_item, written, written_packet,
        freed, freed_item, hrun]

theorem run_invariant (flv : Option media_packet → Int) (sched : List Action) :
    ∀ (w w2 : World) (t : List Event), w.rtmpc.is_run = true →
      run flv w sched = some (w2, t) →
      popped t ++ w2.rtmpc.q = w.rtmpc.q ++ pushed t ∧
      written t = (popped t).map (fun it => it.iov_base) ∧
      freed t = popped t ∧ w2.rtmpc.is_run = true := by
  induction sched with
  | nil =>
    intro w w2 t hrun h
    simp only [run, Option.some.injEq, Prod.mk.injEq] at h
    obtain ⟨hw, ht⟩ := h
    subst hw ht
    simp [popped, pushed, written, freed, hrun]
  | cons a rest ih =>
    intro w w2 t hrun h
    simp only [run] at h
    cases hs : step flv w a with
    | none => rw [hs] at h; cases h
    | some p =>
      obtain ⟨w1, t1⟩ := p
      rw [hs] at h
      simp only at h
      cases hr : run flv w1 rest with
      | none => rw [hr] at h; cases h
      | some p2 =>
        obtain ⟨w3, t2⟩ := p2
        rw [hr] at h
        simp only [Option.some.injEq, Prod.mk.injEq] at h
        obtain ⟨hw, ht⟩ := h
        subst hw ht
        obtain ⟨h1, h2, h3, h4⟩ := step_invariant flv w w1 a t1 hrun hs
        obtain ⟨k1, k2, k3, k4⟩ := ih w1 w3 t2 h4 hr
        refine ⟨?_, ?_, ?_, k4⟩
        · rw [popped_append, pushed_append, List.append_assoc, k1, ← List.append_assoc, h1,
            List.append_assoc]
        · rw [written_append, popped_append, List.map_append, h2, k2]
        · rw [freed_append, popped_append, h3, k3]

/-- C1: start the worker on any session (its entry flushes the queue and sets
the run flag) and let any schedule of completed `rtmpc_send_packet` calls and
worker passes run with defined behaviour. Then the items popped so far followed
by the items still queued are exactly the items pushed, in push order; the
packets handed to `flv_write_packet` are the packets of the popped items, in
the same order; and once the worker has made as many further passes as items
remain, the packets written are exactly the packets pushed, each once, in the
order they were pushed. -/
theorem rtmpc_fifo_order (flv_write_packet : Option media_packet → Int) (heap : Heap)
    (r : rtmpc) (sched : List Action) (w : World) (t : List Event)
    (h : run flv_write_packet ⟨heap, (rtmpc_stream_thread_enter r).1⟩ sched = some (w, t)) :
    popped t ++ w.rtmpc.q = pushed t ∧
    written t = (popped t).map (fun it => it.iov_base) ∧
    written t ++ w.rtmpc.q.map (fun it => it.iov_base) =
      (pushed t).map (fun it => it.iov_base) ∧
    written (t ++ (rtmpc_stream_thread_loop flv_write_packet w.rtmpc.q.length w.rtmpc).2) =
      (pushed t).map (fun it => it.iov_base) := by
  obtain ⟨h1, h2, _, h4⟩ :=
    run_invariant flv_write_packet sched ⟨heap, (rtmpc_stream_thread_enter r).1⟩ w t rfl h
  have h1' : popped t ++ w.rtmpc.q = pushed t := by
    rw [h1]; simp [rtmpc_stream_thread_enter, queue_flush]
  have h3 : written t ++ w.rtmpc.q.map (fun it => it.iov_base) =
      (pushed t).map (fun it => it.iov_base) := by
    rw [h2, ← List.map_append, h1']
  refine ⟨h1', h2, h3, ?_⟩
  have hd := loop_drain flv_write_packet 0 w.rtmpc.q w.rtmpc h4 rfl
  rw [Nat.add_zero] at hd
  rw [written_append, hd]
  simp only [List.replicate_zero, List.flatten_nil, List.append_nil]
  rw [written_item_events, h3]

/-- C1, for the sample schedule run on a session that had a backlog. -/
theorem rtmpc_fifo_order_witness :
    ∃ w t, run flv_reject ⟨sample_heap, (rtmpc_stream_thread_enter sample_running).1⟩
        sample_schedule = some (w, t) ∧
      pushed t =
        [⟨some (.video { sample_video with data := some 2 })⟩,
         ⟨some (.video { sample_video2 with data := some 3 })⟩,
         ⟨some (.video { sample_video with data := some 4 })⟩] ∧
      popped t ++ w.rtmpc.q = pushed t ∧
      written t = (popped t).map (fun it => it.iov_base) ∧
      written t ++ w.rtmpc.q.map (fun it => it.iov_base) =
        (pushed t).map (fun it => it.iov_base) ∧
      written (t ++ (rtmpc_stream_thread_loop flv_reject w.rtmpc.q.length w.rtmpc).2) =
        (pushed t).map (fun it => it.iov_base) :=
  ⟨_, _, rfl, by decide,
    rtmpc_fifo_order flv_reject sample_heap sample_running sample_schedule _ _ rfl⟩

/-! ## The worker loop, item by item -/

/-- C8: while the run flag is set, the worker loop working on a queue holding
`r.q` makes, for each item in turn and whatever the muxer returns, exactly the
calls `queue_pop`, `flv_write_packet` on the item's packet and `item_free` on
the item; it then keeps polling, the run flag still set. The same holds with
the producer sending in between: in every defined schedule the items freed are
the items popped and the packets written are their packets, each once and in
pop order, and the run flag stays set. -/
theorem rtmpc_stream_thread_loop_each_item (flv_write_packet : Option media_packet → Int)
    (k : Nat) (r : rtmpc) (hrun : r.is_run = true) :
    rtmpc_stream_thread_loop flv_write_packet (r.q.length + k) r =
      ({ r with q := [] },
       (r.q.map (fun it =>
          [Event.queue_pop (some it),
           Event.flv_write_packet it.iov_base (flv_write_packet it.iov_base),
           Event.item_free it])).flatten ++
        (List.replicate k [Event.queue_pop none, Event.usleep 200000]).flatten) ∧
    (rtmpc_stream_thread_loop flv_write_packet (r.q.length + k) r).1.is_run = true ∧
    freed (rtmpc_stream_thread_loop flv_write_packet (r.q.length + k) r).2 = r.q ∧
    written (rtmpc_stream_thread_loop flv_write_packet (r.q.length + k) r).2 =
      r.q.map (fun it => it.iov_base) ∧
    (∀ (heap : Heap) (sched : List Action) (w : World) (t : List Event),
      run flv_write_packet ⟨heap, r⟩ sched = some (w, t) →
        freed t = popped t ∧ written t = (popped t).map (fun it => it.iov_base) ∧
        w.rtmpc.is_run = true) := by
  have h := loop_drain flv_write_packet k r.q r hrun rfl
  refine ⟨h, ?_, ?_, ?_, ?_⟩
  · rw [h]; exact hrun
  · rw [h]
    show freed ((r.q.map (item_events flv_write_packet)).flatten ++
      (List.replicate k idle_events).flatten) = r.q
    rw [freed_append, freed_item_events, freed_idle, List.append_nil]
  · rw [h]
    show written ((r.q.map (item_events flv_write_packet)).flatten ++
      (List.replicate k idle_events).flatten) = r.q.map (fun it => it.iov_base)
    rw [written_append, written_item_events, written_idle, List.append_nil]
  · intro heap sched w t hsched
    obtain ⟨_, h2, h3, h4⟩ := run_invariant flv_write_packet sched ⟨heap, r⟩ w t hrun hsched
    exact ⟨h3, h2, h4⟩

/-- C8, for the running sample session, a rejecting muxer and two idle passes
after the queued item. -/
theorem rtmpc_stream_thread_loop_each_item_witness :
    rtmpc_stream_thread_loop flv_reject (sample_running.q.length + 2) sample_running =
      ({ sample_running with q := [] },
       (sample_running.q.map (fun it =>
          [Event.queue_pop (some it),
           Event.flv_write_packet it.iov_base (flv_reject it.iov_base),
           Event.item_free it])).flatten ++
        (List.replicate 2 [Event.queue_pop none, Event.usleep 200000]).flatten) ∧
    (rtmpc_stream_thread_loop flv_reject (sample_running.q.length + 2) sample_running).1.is_run
      = true ∧
    freed (rtmpc_stream_thread_loop flv_reject (sample_running.q.length + 2) sample_running).2
      = sample_running.q ∧
    written (rtmpc_stream_thread_loop flv_reject (sample_running.q.length + 2) sample_running).2
      = sample_running.q.map (fun it => it.iov_base) ∧
    (∀ (heap : Heap) (sched : List Action) (w : World) (t : List Event),
      run flv_reject ⟨heap, sample_running⟩ sched = some (w, t) →
        freed t = popped t ∧ written t = (popped t).map (fun it => it.iov_base) ∧
        w.rtmpc.is_run = true) :=
  rtmpc_stream_thread_loop_each_item flv_reject 2 sample_running rfl

end Rtmpc
